import Mathlib

/-!
# Verification of the data-validator core (`src/validator/core.py`)

This file gives a shallow embedding of the rule-evaluation engine of the
repository: the cell/value model, the type-coercion helpers
(`_coerce_series_to_type`), the regex helper (`_regex_mismatch`), the
boundary-cast helper (`_maybe_cast`) and the orchestrator (`validate_data`),
together with theorems settling the frozen claims about them.

Modelling conventions:
* A pandas cell is a `Value`: null (`None`/`NaN`/`NaT`/`NA` are identified),
  a Python int, a Python float (modelled as an exact fraction — Python floats
  are dyadic rationals and no claim depends on rounding), a string, or a
  `datetime.date`.
* A `DataFrame` is a list of named columns plus a row count; the row index is
  the default 0-based range index.
* Python exceptions are modelled by `Option`: a helper that can raise returns
  `none` on raise, and `validate_data` returns `none` when an uncaught
  exception escapes (pandas' nullable-integer cast raises a `TypeError` on
  non-integral floats, which `validate_data` does not catch).
* Regexes are embedded as an AST with full-match semantics via Brzozowski
  derivatives, mirroring `re.Pattern.fullmatch`.
-/

/-- A calendar date (`datetime.date`): year, month, day. -/
structure Date where
  year : Int
  month : Nat
  day : Nat
deriving DecidableEq, Repr

/-- Lexicographic strict order on dates, as Python compares `datetime.date`. -/
def dateLtB (a b : Date) : Bool :=
  a.year < b.year ∨ (a.year = b.year ∧
    (a.month < b.month ∨ (a.month = b.month ∧ a.day < b.day)))

/-- A Python float modelled exactly as a fraction (floats are dyadic
rationals, and the decimal parser below produces denominators that are
powers of ten). The fraction is kept unreduced; every operation compares by
cross-multiplication, so normalization is never needed. Every `Flt` the
embedding constructs has a positive denominator. -/
structure Flt where
  num : Int
  den : Nat
deriving DecidableEq, Repr

/-- Strict order on fractions by cross-multiplication (valid for the
positive denominators the embedding constructs). -/
def fltLt (p q : Flt) : Bool := p.num * (q.den : Int) < q.num * (p.den : Int)

/-- Equality of fractions by cross-multiplication. -/
def fltEq (p q : Flt) : Bool := p.num * (q.den : Int) = q.num * (p.den : Int)

/-- Is the fraction an integer? -/
def Flt.integral (p : Flt) : Bool := p.num % (p.den : Int) = 0

/-- The integer value of an integral fraction. -/
def Flt.toIntVal (p : Flt) : Int := p.num / (p.den : Int)

/-- One cell of a column: either a null marker (`None`, `NaN`, `NaT`, `NA`
are identified) or a typed Python value. -/
inductive Value where
  | vnull : Value
  | vint : Int → Value
  | vfloat : Flt → Value
  | vstr : String → Value
  | vdate : Date → Value
deriving DecidableEq, Repr

open Value

/-- `pd.isna` on a cell. -/
def isna : Value → Bool
  | vnull => true
  | _ => false

/-- Lexicographic strict order on char lists, as Python compares strings. -/
def charListLt : List Char → List Char → Bool
  | [], [] => false
  | [], _ :: _ => true
  | _ :: _, [] => false
  | a :: as, b :: bs => if a = b then charListLt as bs else decide (a < b)

/-- Python `<` between two cell values. `none` models a raised `TypeError`
(e.g. `int < str`). Comparisons against the null marker mirror `NaN`/`NaT`
semantics: they are defined and return `False`. -/
def pyLt : Value → Value → Option Bool
  | vnull, _ => some false
  | _, vnull => some false
  | vint a, vint b => some (decide (a < b))
  | vint a, vfloat q => some (fltLt ⟨a, 1⟩ q)
  | vfloat p, vint b => some (fltLt p ⟨b, 1⟩)
  | vfloat p, vfloat q => some (fltLt p q)
  | vstr a, vstr b => some (charListLt a.data b.data)
  | vdate a, vdate b => some (dateLtB a b)
  | _, _ => none

/-- Python `==` as pandas' duplicate grouping sees it: numeric values compare
across int/float, and nulls form a single group (pandas `duplicated` treats
all missing values as equal). -/
def pyEq : Value → Value → Bool
  | vnull, vnull => true
  | vint a, vint b => decide (a = b)
  | vint a, vfloat q => fltEq ⟨a, 1⟩ q
  | vfloat p, vint b => fltEq p ⟨b, 1⟩
  | vfloat p, vfloat q => fltEq p q
  | vstr a, vstr b => decide (a = b)
  | vdate a, vdate b => decide (a = b)
  | _, _ => false

/-- Textual representation of a float as Python prints it: integral floats
print with a trailing `.0`. Non-integral floats get a fraction fallback
rendering; no claim exercises their textual form. -/
def fltStr (q : Flt) : String :=
  if q.integral then toString q.toIntVal ++ ".0"
  else toString q.num ++ "/" ++ toString q.den

/-- Zero-padded decimal rendering of a natural number to width 2. -/
def pad2 (n : Nat) : String :=
  if n < 10 then "0" ++ toString n else toString n

/-- ISO rendering of a date, as `str(datetime.date(...))` prints it. -/
def dateStr (d : Date) : String :=
  toString d.year ++ "-" ++ pad2 d.month ++ "-" ++ pad2 d.day

/-- Python `str()` of a cell value. -/
def pyStr : Value → String
  | vnull => "nan"
  | vint n => toString n
  | vfloat q => fltStr q
  | vstr s => s
  | vdate d => dateStr d

/-- A violation record as `validate_data` appends it: an optional row index
(absent for rule-level errors), a column name, and a message. -/
structure Violation where
  row : Option Nat := none
  column : String
  error : String
deriving DecidableEq, Repr

/-!
## Regex engine

`re.compile` / `re.Pattern.fullmatch` are embedded as a regex AST with
full-string matching via Brzozowski derivatives: `rmatch r s` is true iff the
whole of `s` belongs to the language of `r` — matching is anchored at both
ends by construction, the semantics of `fullmatch` (as opposed to `search`).
-/

/-- Regex abstract syntax: empty language, empty string, a literal char, a
character class (ranges, possibly negated as `[^...]`), concatenation,
alternation and Kleene star. -/
inductive Regex where
  | emp : Regex
  | eps : Regex
  | chr : Char → Regex
  | cls : Bool → List (Char × Char) → Regex
  | cat : Regex → Regex → Regex
  | alt : Regex → Regex → Regex
  | star : Regex → Regex
deriving DecidableEq, Repr

namespace Regex

/-- `r+` as `r r*`. -/
def plus (r : Regex) : Regex := cat r (star r)

/-- Does a character class (negated iff `neg`) accept the char `c`? -/
def clsMem (neg : Bool) (ranges : List (Char × Char)) (c : Char) : Bool :=
  xor neg (ranges.any (fun p => p.1 ≤ c ∧ c ≤ p.2))

/-- Does the regex accept the empty string? -/
def nullable : Regex → Bool
  | emp => false
  | eps => true
  | chr _ => false
  | cls _ _ => false
  | cat a b => nullable a && nullable b
  | alt a b => nullable a || nullable b
  | star _ => true

/-- Smart alternation constructor (keeps derivative terms small). -/
def altS : Regex → Regex → Regex
  | emp, b => b
  | a, emp => a
  | a, b => alt a b

/-- Smart concatenation constructor (keeps derivative terms small). -/
def catS : Regex → Regex → Regex
  | emp, _ => emp
  | _, emp => emp
  | eps, b => b
  | a, eps => a
  | a, b => cat a b

/-- Brzozowski derivative of a regex with respect to one character. -/
def deriv (c : Char) : Regex → Regex
  | emp => emp
  | eps => emp
  | chr a => if a = c then eps else emp
  | cls neg rs => if clsMem neg rs c then eps else emp
  | cat a b => altS (catS (deriv c a) b) (if nullable a then deriv c b else emp)
  | alt a b => altS (deriv c a) (deriv c b)
  | star a => catS (deriv c a) (star a)

/-- Full-string match over a character list. -/
def rmatchL (r : Regex) (cs : List Char) : Bool :=
  nullable (cs.foldl (fun r c => deriv c r) r)

/-- Full-string match, the embedding of `re.Pattern.fullmatch s is not None`. -/
def rmatch (r : Regex) (s : String) : Bool := rmatchL r s.data

/-- Substring-search semantics (`re.Pattern.search`): some contiguous
substring matches. Used only to witness that full-string matching is
anchored, i.e. not a substring search. -/
def rsearch (r : Regex) (s : String) : Bool :=
  (s.data.tails.any (fun t => t.inits.any (fun u => rmatchL r u)))

end Regex

/-- The embedding of `_regex_mismatch`: true iff the value is not null and
its textual representation does not full-match the pattern. -/
def regexMismatch (val : Value) (pattern : Regex) : Bool :=
  if isna val then false
  else !(Regex.rmatch pattern (pyStr val))

/-!
## Parsing helpers (library behavior used by `_coerce_series_to_type`)

`pd.to_numeric(·, errors="coerce")` converts each cell: numbers pass through,
numeric strings parse to an int or a float, anything else becomes `NaN`.
`pd.to_datetime(·, errors="coerce").dt.date` parses date strings to
`datetime.date`, turning failures into `NaT`. The string parsers below cover
the decimal and ISO-date formats; exotic formats (exponent notation,
non-ISO dates, ...) are outside every claim and parse as failures.
-/

/-- Are all chars decimal digits? -/
def allDigits (cs : List Char) : Bool := cs.all (fun c => c.isDigit)

/-- Digits to a natural number, most significant first. -/
def digitsToNat (cs : List Char) : Nat :=
  cs.foldl (fun acc c => acc * 10 + (c.toNat - 48)) 0

/-- Parse an optional sign, returning (negative?, rest). -/
def splitSign : List Char → Bool × List Char
  | '-' :: cs => (true, cs)
  | '+' :: cs => (false, cs)
  | cs => (false, cs)

/-- Parse a decimal integer string (`int`-shaped: optional sign, digits). -/
def parseIntQ (cs : List Char) : Option Int :=
  let (neg, ds) := splitSign cs
  if ds ≠ [] ∧ allDigits ds then
    let n : Int := digitsToNat ds
    some (if neg then -n else n)
  else none

/-- Parse a decimal float string: optional sign, digits with an optional
decimal point (`"3.5"`, `".5"`, `"3."`). The result is the exact fraction
over a power-of-ten denominator. -/
def parseFlt (cs : List Char) : Option Flt :=
  let (neg, ds) := splitSign cs
  let intPart := ds.takeWhile (fun c => c.isDigit)
  let rest := ds.dropWhile (fun c => c.isDigit)
  let go : Option Flt :=
    match rest with
    | [] => if intPart = [] then none else some ⟨digitsToNat intPart, 1⟩
    | '.' :: frac =>
        if allDigits frac ∧ (intPart ≠ [] ∨ frac ≠ []) then
          some ⟨digitsToNat intPart * 10 ^ frac.length + digitsToNat frac,
                10 ^ frac.length⟩
        else none
    | _ => none
  go.map (fun q => if neg then ⟨-q.num, q.den⟩ else q)

/-- Parse an ISO `YYYY-MM-DD` date string with calendar-bounds checks on
month and day (the model of `pd.to_datetime` on the formats the claims
exercise; other accepted pandas formats are outside every claim). -/
def parseDate (cs : List Char) : Option Date :=
  match cs with
  | [y1, y2, y3, y4, '-', m1, m2, '-', d1, d2] =>
    if allDigits [y1, y2, y3, y4] ∧ allDigits [m1, m2] ∧ allDigits [d1, d2] then
      let m := digitsToNat [m1, m2]
      let d := digitsToNat [d1, d2]
      if 1 ≤ m ∧ m ≤ 12 ∧ 1 ≤ d ∧ d ≤ 31 then
        some ⟨digitsToNat [y1, y2, y3, y4], m, d⟩
      else none
    else none
  | _ => none

/-!
## Type coercion engine (`_coerce_series_to_type`)
-/

/-- `pd.to_numeric(·, errors="coerce")` applied to one cell: numbers pass
through, numeric strings parse (int-shaped to int, otherwise float),
everything else coerces to null. -/
def toNumericCell : Value → Value
  | vnull => vnull
  | vint n => vint n
  | vfloat q => vfloat q
  | vstr s =>
      match parseIntQ s.data with
      | some n => vint n
      | none => match parseFlt s.data with
                | some q => vfloat q
                | none => vnull
  | vdate _ => vnull

/-- Is the cell a non-integral float (the values the nullable-integer cast
cannot represent)? -/
def nonIntegralFloat : Value → Bool
  | vfloat q => !q.integral
  | _ => false

/-- `.astype("Int64")` on one numeric cell: integral values become ints,
null stays null. Only defined on cells `toNumericCell` can produce. -/
def toInt64Cell : Value → Value
  | vfloat q => if q.integral then vint q.toIntVal else vfloat q
  | v => v

/-- `pd.to_numeric(s, errors="coerce").astype("Int64")` on a column.
pandas' nullable-integer cast goes through a safe-cast check and raises
`TypeError: cannot safely cast non-equivalent float64 to int64` whenever a
non-integral float is present; `none` models that raise. -/
def coerceIntColumn (xs : List Value) : Option (List Value) :=
  let ys := xs.map toNumericCell
  if ys.any nonIntegralFloat then none
  else some (ys.map toInt64Cell)

/-- `.astype("string")` on one cell: non-null cells become their textual
representation, nulls stay null. -/
def toStringCell : Value → Value
  | vnull => vnull
  | v => vstr (pyStr v)

/-- `pd.to_datetime(·, errors="coerce").dt.date` on one cell: date strings
parse, dates pass through, failures (and the numeric cells no claim
exercises) coerce to null. -/
def toDateCell : Value → Value
  | vstr s => match parseDate s.data with
              | some d => vdate d
              | none => vnull
  | vdate d => vdate d
  | _ => vnull

/-- The embedding of `_coerce_series_to_type`: convert a column to a logical
type; an unknown type name is a pass-through. `none` models the uncaught
`TypeError` that the `"int"` branch raises on non-integral floats. -/
def coerceSeries (xs : List Value) (expected : String) : Option (List Value) :=
  if expected = "int" then coerceIntColumn xs
  else if expected = "float" then some (xs.map toNumericCell)
  else if expected = "string" then some (xs.map toStringCell)
  else if expected = "date" then some (xs.map toDateCell)
  else some xs

/-!
## Tables, rules, configuration
-/

/-- An in-memory table: named columns over the default 0-based range index.
`nrows` is the row count (`len(df)`); well-formedness (`DataFrame.WF`) says
every column has `nrows` cells. -/
structure DataFrame where
  cols : List (String × List Value)
  nrows : Nat

/-- Every column of the table has exactly `nrows` cells. -/
def DataFrame.WF (df : DataFrame) : Prop :=
  ∀ p ∈ df.cols, p.2.length = df.nrows

instance (df : DataFrame) : Decidable df.WF := by
  unfold DataFrame.WF; infer_instance

/-- One validation rule, the parsed YAML mapping: every check is optional.
The regex is stored compiled (an invalid pattern is a fatal configuration
error raised at `re.compile`, before any per-row work — outside the core
claims). -/
structure Rule where
  column : Option String := none
  type : Option String := none
  not_null : Bool := false
  unique : Bool := false
  min : Option Value := none
  max : Option Value := none
  regex : Option Regex := none

/-- The parsed YAML configuration: `config.get("rules", [])` reads an
optional `rules` key. -/
structure Config where
  rules : Option (List Rule) := none

/-- `config.get("rules", [])`. -/
def Config.getRules (c : Config) : List Rule := c.rules.getD []

/-!
## Rule evaluators
-/

/-- Python `float(boundary)` as `_maybe_cast` uses it on a numeric sample:
ints and floats convert, float-shaped strings parse; `none` models the
`ValueError`/`TypeError` raised on anything else. -/
def pyFloat : Value → Option Flt
  | vint n => some ⟨n, 1⟩
  | vfloat q => some q
  | vstr s => parseFlt s.data
  | _ => none

/-- `pd.to_datetime(boundary, errors="coerce").date()` as `_maybe_cast` uses
it on a date sample: strings parse to a date or to `NaT` (null), dates pass
through; the numeric inputs no claim exercises are modelled as unparsed. -/
def castToDate : Value → Value
  | vstr s => match parseDate s.data with
              | some d => vdate d
              | none => vnull
  | vdate d => vdate d
  | _ => vnull

/-- The embedding of `_maybe_cast`: cast a configuration boundary literal to
the sample value's runtime category; `none` models a raise (caught by the
range loop's `except`). -/
def maybeCast (boundary sample : Value) : Option Value :=
  if isna sample then some boundary
  else match sample with
    | vdate _ => some (castToDate boundary)
    | vint _ => (pyFloat boundary).map vfloat
    | vfloat _ => (pyFloat boundary).map vfloat
    | _ => some boundary

/-- The per-cell "Range check failed" violation. -/
def rangeFailViolation (i : Nat) (col : String) : Violation :=
  ⟨some i, col, "Range check failed (incomparable types)"⟩

/-- One boundary check of the range loop: cast the boundary and compare with
`cmp`; `none` models a raise inside the `try` block, `some []` no violation,
`some [v]` an emitted violation. -/
def boundaryCheck (cmp : Value → Value → Option Bool) (boundary val : Value)
    (viol : Violation) : Option (List Violation) :=
  match maybeCast boundary val with
  | none => none
  | some c =>
    match cmp val c with
    | none => none
    | some b => some (if b then [viol] else [])

/-- The outcome of the `min_v` half of the `try` block for one cell: no
configured min means no violations; otherwise cast and compare
(`val < _maybe_cast(min_v, val)`). -/
def minBoundaryRes (col : String) (minv : Option Value) (i : Nat)
    (val : Value) : Option (List Violation) :=
  match minv with
  | none => some []
  | some m => boundaryCheck pyLt m val
      ⟨some i, col, "Value " ++ pyStr val ++ " below min " ++ pyStr m⟩

/-- The outcome of the `max_v` half of the `try` block
(`val > _maybe_cast(max_v, val)`). -/
def maxBoundaryRes (col : String) (maxv : Option Value) (i : Nat)
    (val : Value) : Option (List Violation) :=
  match maxv with
  | none => some []
  | some m => boundaryCheck (fun v c => pyLt c v) m val
      ⟨some i, col, "Value " ++ pyStr val ++ " above max " ++ pyStr m⟩

/-- The body of the range loop for one cell: nulls are skipped; otherwise the
min check runs, then the max check; a raise in either appends one
"Range check failed" violation and abandons the rest of the `try` block —
violations already emitted by the min check survive a raise in the max
check. -/
def rangeCheckCell (col : String) (minv maxv : Option Value) (i : Nat)
    (val : Value) : List Violation :=
  if isna val then []
  else
    match minBoundaryRes col minv i val with
    | none => [rangeFailViolation i col]
    | some es1 =>
      match maxBoundaryRes col maxv i val with
      | none => es1 ++ [rangeFailViolation i col]
      | some es2 => es1 ++ es2

/-- Coercion-failure violations: one per row where the coerced cell is null
and the original cell was not (`coerced.isna() & s.notna()`). -/
def typeFailViolations (col ty : String) (raw coerced : List Value) :
    List Violation :=
  (List.range raw.length).filterMap (fun i =>
    if isna (coerced.getD i vnull) && !(isna (raw.getD i vnull)) then
      some ⟨some i, col, "Type mismatch: expected " ++ ty⟩
    else none)

/-- Not-null violations: one per row where the (possibly coerced) cell is
null. -/
def notNullViolations (col : String) (s : List Value) : List Violation :=
  (List.range s.length).filterMap (fun i =>
    if isna (s.getD i vnull) then
      some ⟨some i, col, "Null value not allowed"⟩
    else none)

/-- Uniqueness violations, `df.duplicated(subset=[col], keep=False)`: one per
row whose raw cell value occurs in at least two rows of the raw column. -/
def uniqueViolations (col : String) (raw : List Value) : List Violation :=
  (List.range raw.length).filterMap (fun i =>
    if 2 ≤ raw.countP (fun v => pyEq (raw.getD i vnull) v) then
      some ⟨some i, col, "Duplicate value found"⟩
    else none)

/-- Range violations: the range-loop body over every cell of the (possibly
coerced) column. -/
def rangeViolations (col : String) (minv maxv : Option Value)
    (s : List Value) : List Violation :=
  (List.range s.length).flatMap (fun i =>
    rangeCheckCell col minv maxv i (s.getD i vnull))

/-- Regex violations: one per row where `_regex_mismatch` holds on the
(possibly coerced) cell. -/
def regexViolations (col : String) (pattern : Regex) (s : List Value) :
    List Violation :=
  (List.range s.length).filterMap (fun i =>
    if regexMismatch (s.getD i vnull) pattern then
      some ⟨some i, col, "Regex mismatch: " ++ pyStr (s.getD i vnull)⟩
    else none)

/-- Checks 2–5 of a rule, in the source's fixed order, applied after
coercion. `raw` is the untouched column of `df_local` (the uniqueness check
reads it), `s` the working column (coerced when a type was configured). -/
def checksViolations (col : String) (rule : Rule) (raw s : List Value) :
    List Violation :=
  (if rule.not_null then notNullViolations col s else [])
  ++ (if rule.unique then uniqueViolations col raw else [])
  ++ (if rule.min.isSome || rule.max.isSome then
        rangeViolations col rule.min rule.max s else [])
  ++ (match rule.regex with
      | some p => regexViolations col p s
      | none => [])

/-!
## Validation orchestrator (`validate_data`)
-/

/-- The loop body of `validate_data` for one rule: resolve the column,
coerce, run the checks. `none` models an uncaught exception escaping the
body (the `"int"` coercion raise). A falsy `column` key (absent or the empty
string) and a missing column each yield exactly one rule-level violation and
skip every other check. -/
def ruleViolations (df : DataFrame) (rule : Rule) : Option (List Violation) :=
  match rule.column with
  | none => some [⟨none, "-", "Rule missing 'column' key"⟩]
  | some col =>
    if col = "" then some [⟨none, "-", "Rule missing 'column' key"⟩]
    else
      match df.cols.lookup col with
      | none => some [⟨none, col, "Column not found in dataset"⟩]
      | some raw =>
        match rule.type with
        | none => some (checksViolations col rule raw raw)
        | some ty =>
          if ty = "" then some (checksViolations col rule raw raw)
          else
            match coerceSeries raw ty with
            | none => none
            | some coerced =>
              some (typeFailViolations col ty raw coerced
                    ++ checksViolations col rule raw coerced)

/-- The rule loop with the working table threaded through explicitly: each
iteration reads the current `df_local`, appends its violations, and hands the
table on. The loop body never writes to `df_local` (coercion rebinds only the
local `s`), which the step mirrors by returning the table it was given. -/
def loopRules (dfLocal : DataFrame) : List Rule → Option (List Violation × DataFrame)
  | [] => some ([], dfLocal)
  | r :: rs =>
    match ruleViolations dfLocal r with
    | none => none
    | some es =>
      match loopRules dfLocal rs with
      | none => none
      | some (rest, dfFinal) => some (es ++ rest, dfFinal)

/-- The summary block of the report. -/
structure Summary where
  rows_checked : Nat
  rows_failed : Nat
  validation_passed : Bool
deriving DecidableEq, Repr

/-- The report: summary plus the ordered violation list. -/
structure Report where
  summary : Summary
  errors : List Violation
deriving DecidableEq, Repr

/-- `{e["row"] for e in errors if "row" in e}` — the number of distinct row
indices appearing in violations that carry a row. -/
def distinctFailedRows (errors : List Violation) : Nat :=
  (errors.filterMap Violation.row).dedup.length

/-- The embedding of `validate_data`: work on a copy of the table, run every
rule in order accumulating violations, then build the summary. `none` models
an uncaught exception aborting the run. -/
def validate_data (df : DataFrame) (config : Config) : Option Report :=
  match loopRules df config.getRules with
  | none => none
  | some (errors, _dfFinal) =>
    some { summary := { rows_checked := df.nrows,
                        rows_failed := distinctFailedRows errors,
                        validation_passed := errors.isEmpty },
           errors := errors }

/-!
## Concrete instances used by the claims
-/

/-- The ASCII whitespace ranges of the regex class `\s`. -/
def wsRanges : List (Char × Char) :=
  [(' ', ' '), ('\t', '\t'), ('\n', '\n'), ('\r', '\r'),
   ('\x0b', '\x0b'), ('\x0c', '\x0c')]

/-- The character class `[^@\s]`. -/
def notAtWs : Regex := Regex.cls true (('@', '@') :: wsRanges)

/-- The email pattern `^[^@\s]+@[^@\s]+\.[^@\s]+$` compiled (under
`fullmatch` the `^`/`$` anchors are no-ops and are dropped). -/
def emailPat : Regex :=
  Regex.cat (Regex.plus notAtWs)
    (Regex.cat (Regex.chr '@')
      (Regex.cat (Regex.plus notAtWs)
        (Regex.cat (Regex.chr '.') (Regex.plus notAtWs))))

/-- A one-row, one-column table used to exercise rule-level violations. -/
def ghostDF : DataFrame := ⟨[("a", [vint 1])], 1⟩

/-- A configuration whose single rule names a column absent from `ghostDF`. -/
def ghostConfig : Config := ⟨some [{ column := some "ghost" }]⟩

/-- The report `validate_data ghostDF ghostConfig` produces: one rule-level
violation without a row, so `rows_failed = 0` yet validation fails. -/
def ghostReport : Report :=
  ⟨⟨1, 0, false⟩, [⟨none, "ghost", "Column not found in dataset"⟩]⟩

/-- A one-column table holding the single cell `"3.5"`, the minimal input on
which `int` coercion meets a non-integral float. -/
def floatDF : DataFrame := ⟨[("age", [vstr "3.5"])], 1⟩

/-- A configuration asking for `int` coercion of that column. -/
def floatConfig : Config := ⟨some [{ column := some "age", type := some "int" }]⟩

/-- The table of the repository's own end-to-end test. -/
def demoDF : DataFrame :=
  ⟨[("user_id", [vint 1, vint 2, vint 2]),
    ("age", [vint 10, vnull, vint 200]),
    ("email", [vstr "a@b.com", vstr "bad@", vstr "c@d.com"]),
    ("signup_date", [vstr "2022-01-01", vstr "2019-01-01", vstr "2023-05-05"])],
   3⟩

/-- The ruleset of the repository's own end-to-end test. -/
def demoConfig : Config :=
  ⟨some [{ column := some "user_id", unique := true },
         { column := some "age", type := some "int",
           min := some (vint 0), max := some (vint 120) },
         { column := some "email", regex := some emailPat },
         { column := some "signup_date", type := some "date",
           min := some (vstr "2020-01-01") }]⟩

/-!
## Helper lemmas
-/

/-- Membership in `filterMap` over an index range. -/
theorem mem_filterMap_range {α : Type} (f : Nat → Option α) (n : Nat) (a : α) :
    a ∈ (List.range n).filterMap f ↔ ∃ i, i < n ∧ f i = some a := by
  simp [List.mem_filterMap]

/-- A successful association-list lookup exhibits a member. -/
theorem mem_of_lookup_eq_some {β : Type} :
    ∀ (l : List (String × β)) (a : String) (b : β),
      l.lookup a = some b → (a, b) ∈ l := by
  intro l
  induction l with
  | nil => intro a b h; cases h
  | cons p l ih =>
    intro a b h
    rw [List.lookup] at h
    by_cases hx : a = p.1
    · subst hx
      simp at h
      subst h
      exact List.mem_cons_self _ _
    · have : (a == p.1) = false := by simpa using hx
      rw [this] at h
      exact List.mem_cons_of_mem _ (ih a b h)

/-- `List.isEmpty` agrees with equality to `[]`. -/
theorem isEmpty_eq_true_iff {α : Type} (l : List α) :
    l.isEmpty = true ↔ l = [] := by
  cases l <;> simp

/-- `distinctFailedRows` counts the distinct row indices carried by
violations. -/
theorem distinctFailedRows_eq_card (errors : List Violation) :
    distinctFailedRows errors =
      (errors.filterMap Violation.row).toFinset.card := by
  rw [distinctFailedRows, List.card_toFinset]

/-!
## Claims
-/

/-- C1: the claim says a cell whose value parses only as a non-integral
float (e.g. `"3.5"`) under an `int` rule is coercion-failed with exactly one
"Type mismatch: expected int" violation and the run completes. The code
instead aborts: `pd.to_numeric(...).astype("Int64")` raises `TypeError`
("cannot safely cast non-equivalent float64 to int64") on any non-integral
float, the exception is not caught in `validate_data`, and no report is
produced. This theorem evaluates the embedded code at the failing input. -/
theorem c1_nonintegral_float_aborts_run :
    validate_data floatDF floatConfig = none ∧
    coerceSeries [vstr "3.5"] "int" = none ∧
    toNumericCell (vstr "3.5") = vfloat ⟨35, 10⟩ := by
  exact ⟨by decide, by decide, by decide⟩

/-- C9: a configuration with no `rules` key, or with an empty rules list, is
not an error: the report has an empty violation list, `validation_passed`
true, `rows_failed` 0 and `rows_checked` equal to the table's row count. -/
theorem c9_empty_ruleset_passes (df : DataFrame) :
    validate_data df ⟨none⟩ = some ⟨⟨df.nrows, 0, true⟩, []⟩ ∧
    validate_data df ⟨some []⟩ = some ⟨⟨df.nrows, 0, true⟩, []⟩ := by
  constructor <;> rfl

/-- C2: in every produced report, `validation_passed` is true iff the
violation list is empty, and `rows_failed` is the number of distinct row
indices appearing in violations that carry a row; and there is an input (a
rule naming a missing column) with `rows_failed = 0` yet
`validation_passed = false`. -/
theorem c2_summary_semantics :
    (∀ df config report, validate_data df config = some report →
       ((report.summary.validation_passed = true ↔ report.errors = []) ∧
        report.summary.rows_failed =
          (report.errors.filterMap Violation.row).toFinset.card)) ∧
    (∃ df config report, validate_data df config = some report ∧
       report.summary.rows_failed = 0 ∧
       report.summary.validation_passed = false) := by
  constructor
  · intro df config report h
    rw [validate_data] at h
    cases hl : loopRules df config.getRules with
    | none => rw [hl] at h; cases h
    | some p =>
      rw [hl] at h
      obtain ⟨errors, dfF⟩ := p
      injection h with h
      subst h
      exact ⟨isEmpty_eq_true_iff errors, distinctFailedRows_eq_card errors⟩
  · exact ⟨ghostDF, ghostConfig, ghostReport, by decide, by decide, by decide⟩

/-- C2 witness: the general summary laws applied to the concrete
missing-column run. -/
theorem c2_summary_semantics_witness :
    (ghostReport.summary.validation_passed = true ↔ ghostReport.errors = []) ∧
    ghostReport.summary.rows_failed =
      (ghostReport.errors.filterMap Violation.row).toFinset.card :=
  c2_summary_semantics.1 ghostDF ghostConfig ghostReport (by decide)

/-- C7: the rule loop hands the working table through unchanged — whatever
rules run, the table after the loop is the table before it — and a rule's
type coercion is transient: in a two-rule run the second rule's violations
are computed from the same original table as the first rule's, so coercing a
column for rule R1 cannot change what rule R2 observes, and the caller's
table (of which `df_local` is a copy) is never mutated. -/
theorem c7_table_unchanged_and_coercion_transient :
    (∀ df rules errs dfF, loopRules df rules = some (errs, dfF) → dfF = df) ∧
    (∀ df r1 r2 e1 e2, ruleViolations df r1 = some e1 →
       ruleViolations df r2 = some e2 →
       loopRules df [r1, r2] = some (e1 ++ e2, df)) := by
  constructor
  · intro df rules
    induction rules with
    | nil =>
      intro errs dfF h
      rw [loopRules] at h
      injection h with h
      exact (congrArg Prod.snd h).symm
    | cons r rs ih =>
      intro errs dfF h
      rw [loopRules] at h
      cases h1 : ruleViolations df r with
      | none => rw [h1] at h; cases h
      | some es =>
        rw [h1] at h
        cases h2 : loopRules df rs with
        | none => rw [h2] at h; cases h
        | some p =>
          obtain ⟨rest, dfFinal⟩ := p
          rw [h2] at h
          injection h with h
          injection h with ha hb
          exact hb ▸ ih rest dfFinal h2
  · intro df r1 r2 e1 e2 h1 h2
    simp [loopRules, h1, h2]

/-- C7 witness: the two-rule decomposition and the unchanged table at a
concrete run. -/
theorem c7_table_unchanged_witness :
    loopRules ghostDF [{ column := some "ghost" }, { column := some "ghost" }] =
      some ([⟨none, "ghost", "Column not found in dataset"⟩,
             ⟨none, "ghost", "Column not found in dataset"⟩], ghostDF) :=
  c7_table_unchanged_and_coercion_transient.2 ghostDF
    { column := some "ghost" } { column := some "ghost" }
    [⟨none, "ghost", "Column not found in dataset"⟩]
    [⟨none, "ghost", "Column not found in dataset"⟩]
    (by decide) (by decide)

/-- C8: a rule naming a column absent from the table yields exactly one
violation — no row field, the rule's column name, message "Column not found
in dataset" — none of the rule's other checks run (the single-violation
equality leaves no room for them), and the remaining rules of the ruleset
still execute, their violations appended after it. -/
theorem c8_missing_column_single_violation :
    (∀ df rule col, rule.column = some col → col ≠ "" →
       df.cols.lookup col = none →
       ruleViolations df rule =
         some [⟨none, col, "Column not found in dataset"⟩]) ∧
    (∀ df rule col rest, rule.column = some col → col ≠ "" →
       df.cols.lookup col = none →
       loopRules df (rule :: rest) =
         (loopRules df rest).map (fun p =>
           (⟨none, col, "Column not found in dataset"⟩ :: p.1, p.2))) := by
  have main : ∀ (df : DataFrame) (rule : Rule) (col : String),
      rule.column = some col → col ≠ "" → df.cols.lookup col = none →
      ruleViolations df rule =
        some [⟨none, col, "Column not found in dataset"⟩] := by
    intro df rule col hcol hne hlook
    rw [ruleViolations, hcol]
    simp [hne, hlook]
  refine ⟨main, ?_⟩
  intro df rule col rest hcol hne hlook
  rw [loopRules, main df rule col hcol hne hlook]
  cases h2 : loopRules df rest with
  | none => rfl
  | some p => rfl

/-- C8 witness: the missing-column rule at a concrete table, followed by a
second rule that still executes. -/
theorem c8_missing_column_witness :
    ruleViolations ghostDF { column := some "ghost" } =
      some [⟨none, "ghost", "Column not found in dataset"⟩] ∧
    loopRules ghostDF [{ column := some "ghost" }, { column := some "a", not_null := true }] =
      (loopRules ghostDF [{ column := some "a", not_null := true }]).map (fun p =>
        (⟨none, "ghost", "Column not found in dataset"⟩ :: p.1, p.2)) :=
  ⟨c8_missing_column_single_violation.1 ghostDF { column := some "ghost" } "ghost"
     rfl (by decide) (by decide),
   c8_missing_column_single_violation.2 ghostDF { column := some "ghost" } "ghost"
     [{ column := some "a", not_null := true }] rfl (by decide) (by decide)⟩

/-- C3: for a rule with `unique: true` the duplicate check runs on the raw,
uncoerced column — even when the rule also coerces a type, the emitted
duplicate violations are those of the raw column; a row is marked iff its
raw value occurs (under pandas' grouping equality, nulls included as a
regular key) in at least two rows, first occurrences included; and for the
column `[1,2,2,3]` the violations sit at rows 1 and 2. -/
theorem c3_unique_on_raw_marks_all_duplicates :
    (∀ df col ty raw coerced,
       df.cols.lookup col = some raw → col ≠ "" → ty ≠ "" →
       coerceSeries raw ty = some coerced →
       ruleViolations df { column := some col, type := some ty, unique := true } =
         some (typeFailViolations col ty raw coerced ++ uniqueViolations col raw)) ∧
    (∀ col raw i,
       ((⟨some i, col, "Duplicate value found"⟩ : Violation) ∈
           uniqueViolations col raw) ↔
         (i < raw.length ∧
          2 ≤ raw.countP (fun v => pyEq (raw.getD i vnull) v))) ∧
    uniqueViolations "c" [vint 1, vint 2, vint 2, vint 3] =
      [⟨some 1, "c", "Duplicate value found"⟩,
       ⟨some 2, "c", "Duplicate value found"⟩] := by
  refine ⟨?_, ?_, by decide⟩
  · intro df col ty raw coerced hlook hcol hty hco
    rw [ruleViolations]
    simp [hlook, hcol, hty, hco, checksViolations]
  · intro col raw i
    rw [uniqueViolations, mem_filterMap_range]
    constructor
    · rintro ⟨j, hj, hf⟩
      by_cases hp : 2 ≤ raw.countP (fun v => pyEq (raw.getD j vnull) v)
      · rw [if_pos hp] at hf
        injection hf with hf
        obtain ⟨hrow, -, -⟩ := Violation.mk.inj hf
        injection hrow with hrow
        subst hrow
        exact ⟨hj, hp⟩
      · rw [if_neg hp] at hf
        cases hf
    · rintro ⟨hi, hp⟩
      exact ⟨i, hi, by rw [if_pos hp]⟩

/-- C3 witness: the coercing unique rule at the concrete column
`[1,2,2,3]`. -/
theorem c3_unique_witness :
    ruleViolations ⟨[("u", [vint 1, vint 2, vint 2, vint 3])], 4⟩
        { column := some "u", type := some "int", unique := true } =
      some (typeFailViolations "u" "int"
              [vint 1, vint 2, vint 2, vint 3] [vint 1, vint 2, vint 2, vint 3]
            ++ uniqueViolations "u" [vint 1, vint 2, vint 2, vint 3]) :=
  c3_unique_on_raw_marks_all_duplicates.1
    ⟨[("u", [vint 1, vint 2, vint 2, vint 3])], 4⟩ "u" "int"
    [vint 1, vint 2, vint 2, vint 3] [vint 1, vint 2, vint 2, vint 3]
    (by decide) (by decide) (by decide) (by decide)

/-- C4: range bounds are inclusive. A null value emits no range violation at
all; when casting and comparison succeed, the cell emits exactly the
below-min violation when `value < cast(min)` and, independently, the
above-max violation when `value > cast(max)` — so a value equal to a cast
bound emits nothing for that bound, and both violations fire together when
min > max. The concrete conjuncts check `min 0, max 120`: values 0 and 120
pass, -1 fails below, 121 fails above, and `min 10, max 0` fires both on
value 5. -/
theorem c4_range_bounds_inclusive :
    (∀ col minv maxv i, rangeCheckCell col minv maxv i vnull = []) ∧
    (∀ col i val m M cm cM bLo bHi,
       isna val = false →
       maybeCast m val = some cm → pyLt val cm = some bLo →
       maybeCast M val = some cM → pyLt cM val = some bHi →
       rangeCheckCell col (some m) (some M) i val =
         (if bLo then
            [⟨some i, col, "Value " ++ pyStr val ++ " below min " ++ pyStr m⟩]
          else [])
         ++ (if bHi then
            [⟨some i, col, "Value " ++ pyStr val ++ " above max " ++ pyStr M⟩]
          else [])) ∧
    rangeCheckCell "age" (some (vint 0)) (some (vint 120)) 0 (vint 0) = [] ∧
    rangeCheckCell "age" (some (vint 0)) (some (vint 120)) 0 (vint 120) = [] ∧
    rangeCheckCell "age" (some (vint 0)) (some (vint 120)) 0 (vint (-1)) =
      [⟨some 0, "age", "Value -1 below min 0"⟩] ∧
    rangeCheckCell "age" (some (vint 0)) (some (vint 120)) 0 (vint 121) =
      [⟨some 0, "age", "Value 121 above max 120"⟩] ∧
    rangeCheckCell "x" (some (vint 10)) (some (vint 0)) 0 (vint 5) =
      [⟨some 0, "x", "Value 5 below min 10"⟩,
       ⟨some 0, "x", "Value 5 above max 0"⟩] := by
  refine ⟨?_, ?_, by decide, by decide, by decide, by decide, by decide⟩
  · intro col minv maxv i
    simp [rangeCheckCell, isna]
  · intro col i val m M cm cM bLo bHi hna hc1 hl1 hc2 hl2
    simp only [rangeCheckCell, minBoundaryRes, maxBoundaryRes, boundaryCheck,
               hna, hc1, hl1, hc2, hl2]
    simp

/-- C4 witness: the characterization applied at value 5 against bounds
[0, 120]. -/
theorem c4_range_witness :
    rangeCheckCell "age" (some (vint 0)) (some (vint 120)) 0 (vint 5) =
      (if false then
         [⟨some 0, "age",
           "Value " ++ pyStr (vint 5) ++ " below min " ++ pyStr (vint 0)⟩]
       else [])
      ++ (if false then
         [⟨some 0, "age",
           "Value " ++ pyStr (vint 5) ++ " above max " ++ pyStr (vint 120)⟩]
       else []) :=
  c4_range_bounds_inclusive.2.1 "age" 0 (vint 5) (vint 0) (vint 120)
    (vfloat ⟨0, 1⟩) (vfloat ⟨120, 1⟩) false false
    (by decide) (by decide) (by decide) (by decide) (by decide)

/-- `_regex_mismatch` holds exactly on non-null values whose textual
representation fails the full-string match. -/
theorem regexMismatch_eq_true (val : Value) (p : Regex) :
    regexMismatch val p = true ↔
      (isna val = false ∧ Regex.rmatch p (pyStr val) = false) := by
  rw [regexMismatch]
  cases h : isna val <;> simp [h]

/-- C5: the regex check converts each non-null (possibly coerced) value to
its textual representation and requires a full-string match: a row emits
"Regex mismatch: <value>" iff its value is non-null and fails `rmatch`, and
nulls are skipped. Matching is anchored at both ends — the single-char
pattern `a` does not `rmatch` `"ab"` though a substring search finds it —
and the email pattern accepts `"a@b.com"` and rejects `"bad@"`. -/
theorem c5_regex_fullmatch_semantics :
    (∀ col p s i,
       ((⟨some i, col, "Regex mismatch: " ++ pyStr (s.getD i vnull)⟩ : Violation) ∈
           regexViolations col p s) ↔
         (i < s.length ∧ isna (s.getD i vnull) = false ∧
          Regex.rmatch p (pyStr (s.getD i vnull)) = false)) ∧
    Regex.rmatch emailPat "a@b.com" = true ∧
    Regex.rmatch emailPat "bad@" = false ∧
    Regex.rmatch (Regex.chr 'a') "ab" = false ∧
    Regex.rsearch (Regex.chr 'a') "ab" = true := by
  refine ⟨?_, by decide, by decide, by decide, by decide⟩
  intro col p s i
  rw [regexViolations, mem_filterMap_range]
  constructor
  · rintro ⟨j, hj, hf⟩
    by_cases hm : regexMismatch (s.getD j vnull) p = true
    · rw [if_pos hm] at hf
      injection hf with hf
      obtain ⟨hrow, -, -⟩ := Violation.mk.inj hf
      injection hrow with hrow
      subst hrow
      have hmm := (regexMismatch_eq_true _ _).1 hm
      exact ⟨hj, hmm.1, hmm.2⟩
    · rw [if_neg hm] at hf
      cases hf
  · rintro ⟨hi, hna, hnm⟩
    exact ⟨i, hi, by rw [if_pos ((regexMismatch_eq_true _ _).2 ⟨hna, hnm⟩)]⟩

/-- C6: a "Type mismatch" violation is emitted for row i iff the original
cell there was non-null and the coerced cell is null; a cell that is null in
the input never produces a coercion-failure violation, whatever the target
type. -/
theorem c6_type_violation_iff_nonnull_to_null :
    (∀ col ty raw coerced i,
       ((⟨some i, col, "Type mismatch: expected " ++ ty⟩ : Violation) ∈
           typeFailViolations col ty raw coerced) ↔
         (i < raw.length ∧ isna (raw.getD i vnull) = false ∧
          isna (coerced.getD i vnull) = true)) ∧
    (∀ col ty raw coerced i v,
       isna (raw.getD i vnull) = true →
       v ∈ typeFailViolations col ty raw coerced → v.row ≠ some i) := by
  constructor
  · intro col ty raw coerced i
    rw [typeFailViolations, mem_filterMap_range]
    constructor
    · rintro ⟨j, hj, hf⟩
      by_cases hc : (isna (coerced.getD j vnull) && !(isna (raw.getD j vnull))) = true
      · rw [if_pos hc] at hf
        injection hf with hf
        obtain ⟨hrow, -, -⟩ := Violation.mk.inj hf
        injection hrow with hrow
        subst hrow
        rw [Bool.and_eq_true, Bool.not_eq_eq_eq_not, Bool.not_true] at hc
        exact ⟨hj, hc.2, hc.1⟩
      · rw [if_neg hc] at hf
        cases hf
    · rintro ⟨hi, hraw, hco⟩
      refine ⟨i, hi, ?_⟩
      rw [if_pos (by rw [hraw, hco]; rfl)]
  · intro col ty raw coerced i v hnull hv hrow
    rw [typeFailViolations, mem_filterMap_range] at hv
    obtain ⟨j, hj, hf⟩ := hv
    by_cases hc : (isna (coerced.getD j vnull) && !(isna (raw.getD j vnull))) = true
    · rw [if_pos hc] at hf
      injection hf with hf
      subst hf
      injection hrow with hrow
      subst hrow
      rw [Bool.and_eq_true, Bool.not_eq_eq_eq_not, Bool.not_true, hnull] at hc
      cases hc.2
    · rw [if_neg hc] at hf
      cases hf

/-- C6 witness: at a column whose row 0 is null in the input, the emitted
type-mismatch violation does not sit at row 0. -/
theorem c6_type_violation_witness :
    (⟨some 1, "c", "Type mismatch: expected int"⟩ : Violation).row ≠ some 0 :=
  c6_type_violation_iff_nonnull_to_null.2 "c" "int"
    [vnull, vstr "x"] [vnull, vnull] 0
    ⟨some 1, "c", "Type mismatch: expected int"⟩ (by decide) (by decide)

/-!
## Row provenance (claim C10 support)
-/

/-- A successful boundary check returns either no violation or exactly the
violation it was given. -/
theorem boundaryCheck_eq_some (cmp : Value → Value → Option Bool)
    (b val : Value) (viol : Violation) (es : List Violation)
    (h : boundaryCheck cmp b val viol = some es) : es = [] ∨ es = [viol] := by
  rw [boundaryCheck] at h
  cases hm : maybeCast b val with
  | none => simp only [hm] at h; cases h
  | some c =>
    simp only [hm] at h
    cases hc : cmp val c with
    | none => simp only [hc] at h; cases h
    | some bb =>
      simp only [hc] at h
      injection h with h
      subst h
      cases bb
      · exact Or.inl (by simp)
      · exact Or.inr (by simp)

/-- Violations of a successful min-boundary check sit at the checked row. -/
theorem minBoundaryRes_rows (col : String) (minv : Option Value) (i : Nat)
    (val : Value) (es : List Violation)
    (h : minBoundaryRes col minv i val = some es) :
    ∀ v ∈ es, v.row = some i := by
  intro v hv
  cases minv with
  | none =>
    rw [minBoundaryRes] at h
    injection h with h
    subst h
    cases hv
  | some m =>
    rw [minBoundaryRes] at h
    rcases boundaryCheck_eq_some _ _ _ _ _ h with he | he
    · subst he; cases hv
    · subst he
      rw [List.mem_singleton] at hv
      subst hv
      rfl

/-- Violations of a successful max-boundary check sit at the checked row. -/
theorem maxBoundaryRes_rows (col : String) (maxv : Option Value) (i : Nat)
    (val : Value) (es : List Violation)
    (h : maxBoundaryRes col maxv i val = some es) :
    ∀ v ∈ es, v.row = some i := by
  intro v hv
  cases maxv with
  | none =>
    rw [maxBoundaryRes] at h
    injection h with h
    subst h
    cases hv
  | some m =>
    rw [maxBoundaryRes] at h
    rcases boundaryCheck_eq_some _ _ _ _ _ h with he | he
    · subst he; cases hv
    · subst he
      rw [List.mem_singleton] at hv
      subst hv
      rfl

/-- Every violation the range loop emits for cell `i` carries row `i`. -/
theorem rangeCheckCell_row (col : String) (minv maxv : Option Value) (i : Nat)
    (val : Value) (v : Violation) (h : v ∈ rangeCheckCell col minv maxv i val) :
    v.row = some i := by
  rw [rangeCheckCell.eq_def] at h
  by_cases hna : isna val = true
  · rw [if_pos hna] at h
    cases h
  · rw [if_neg hna] at h
    cases h1 : minBoundaryRes col minv i val with
    | none =>
      rw [h1] at h
      rw [List.mem_singleton] at h
      subst h
      rfl
    | some es1 =>
      rw [h1] at h
      cases h2 : maxBoundaryRes col maxv i val with
      | none =>
        rw [h2] at h
        rcases List.mem_append.mp h with hv | hv
        · exact minBoundaryRes_rows col minv i val es1 h1 v hv
        · rw [List.mem_singleton] at hv
          subst hv
          rfl
      | some es2 =>
        rw [h2] at h
        rcases List.mem_append.mp h with hv | hv
        · exact minBoundaryRes_rows col minv i val es1 h1 v hv
        · exact maxBoundaryRes_rows col maxv i val es2 h2 v hv

/-- Violations produced by a per-row `filterMap` over the index range carry
an in-range row. -/
theorem filterMapRange_rows (n : Nat) (f : Nat → Option Violation)
    (hf : ∀ i w, f i = some w → w.row = some i) (v : Violation)
    (h : v ∈ (List.range n).filterMap f) :
    ∃ i, v.row = some i ∧ i < n := by
  rw [mem_filterMap_range] at h
  obtain ⟨i, hi, hfi⟩ := h
  exact ⟨i, hf i v hfi, hi⟩

/-- Type-failure violations carry a row below the raw column length. -/
theorem typeFailViolations_rows (col ty : String) (raw coerced : List Value)
    (v : Violation) (h : v ∈ typeFailViolations col ty raw coerced) :
    ∃ i, v.row = some i ∧ i < raw.length := by
  rw [typeFailViolations] at h
  refine filterMapRange_rows _ _ ?_ v h
  intro i w hw
  by_cases hc : (isna (coerced.getD i vnull) && !(isna (raw.getD i vnull))) = true
  · rw [if_pos hc] at hw; injection hw with hw; subst hw; rfl
  · rw [if_neg hc] at hw; cases hw

/-- Not-null violations carry a row below the column length. -/
theorem notNullViolations_rows (col : String) (s : List Value)
    (v : Violation) (h : v ∈ notNullViolations col s) :
    ∃ i, v.row = some i ∧ i < s.length := by
  rw [notNullViolations] at h
  refine filterMapRange_rows _ _ ?_ v h
  intro i w hw
  by_cases hc : isna (s.getD i vnull) = true
  · rw [if_pos hc] at hw; injection hw with hw; subst hw; rfl
  · rw [if_neg hc] at hw; cases hw

/-- Duplicate violations carry a row below the raw column length. -/
theorem uniqueViolations_rows (col : String) (raw : List Value)
    (v : Violation) (h : v ∈ uniqueViolations col raw) :
    ∃ i, v.row = some i ∧ i < raw.length := by
  rw [uniqueViolations] at h
  refine filterMapRange_rows _ _ ?_ v h
  intro i w hw
  by_cases hc : 2 ≤ raw.countP (fun x => pyEq (raw.getD i vnull) x)
  · rw [if_pos hc] at hw; injection hw with hw; subst hw; rfl
  · rw [if_neg hc] at hw; cases hw

/-- Regex violations carry a row below the column length. -/
theorem regexViolations_rows (col : String) (p : Regex) (s : List Value)
    (v : Violation) (h : v ∈ regexViolations col p s) :
    ∃ i, v.row = some i ∧ i < s.length := by
  rw [regexViolations] at h
  refine filterMapRange_rows _ _ ?_ v h
  intro i w hw
  by_cases hc : regexMismatch (s.getD i vnull) p = true
  · rw [if_pos hc] at hw; injection hw with hw; subst hw; rfl
  · rw [if_neg hc] at hw; cases hw

/-- Range violations carry a row below the column length. -/
theorem rangeViolations_rows (col : String) (minv maxv : Option Value)
    (s : List Value) (v : Violation) (h : v ∈ rangeViolations col minv maxv s) :
    ∃ i, v.row = some i ∧ i < s.length := by
  rw [rangeViolations] at h
  rw [List.mem_flatMap] at h
  obtain ⟨i, hi, hv⟩ := h
  rw [List.mem_range] at hi
  exact ⟨i, rangeCheckCell_row _ _ _ _ _ _ hv, hi⟩

/-- Violations of checks 2–5 carry a row below the raw or working column
length. -/
theorem checksViolations_rows (col : String) (rule : Rule) (raw s : List Value)
    (v : Violation) (h : v ∈ checksViolations col rule raw s) :
    ∃ i, v.row = some i ∧ (i < raw.length ∨ i < s.length) := by
  rw [checksViolations] at h
  rcases List.mem_append.mp h with h | h
  · rcases List.mem_append.mp h with h | h
    · rcases List.mem_append.mp h with h | h
      · by_cases hb : rule.not_null = true
        · rw [if_pos hb] at h
          obtain ⟨i, hrow, hi⟩ := notNullViolations_rows col s v h
          exact ⟨i, hrow, Or.inr hi⟩
        · rw [if_neg hb] at h; cases h
      · by_cases hb : rule.unique = true
        · rw [if_pos hb] at h
          obtain ⟨i, hrow, hi⟩ := uniqueViolations_rows col raw v h
          exact ⟨i, hrow, Or.inl hi⟩
        · rw [if_neg hb] at h; cases h
    · by_cases hb : (rule.min.isSome || rule.max.isSome) = true
      · rw [if_pos hb] at h
        obtain ⟨i, hrow, hi⟩ := rangeViolations_rows col rule.min rule.max s v h
        exact ⟨i, hrow, Or.inr hi⟩
      · rw [if_neg hb] at h; cases h
  · cases hre : rule.regex with
    | none => rw [hre] at h; cases h
    | some p =>
      rw [hre] at h
      obtain ⟨i, hrow, hi⟩ := regexViolations_rows col p s v h
      exact ⟨i, hrow, Or.inr hi⟩

/-- Coercion preserves the column length. -/
theorem coerceSeries_length (xs : List Value) (ty : String) (ys : List Value)
    (h : coerceSeries xs ty = some ys) : ys.length = xs.length := by
  rw [coerceSeries] at h
  split_ifs at h
  · simp only [coerceIntColumn] at h
    split_ifs at h
    injection h with h
    subst h
    simp
  · injection h with h; subst h; simp
  · injection h with h; subst h; simp
  · injection h with h; subst h; simp
  · injection h with h; subst h; rfl

/-- Every violation a rule emits that carries a row carries a row index
below the table's row count (given equal-length columns). -/
theorem ruleViolations_rows (df : DataFrame) (rule : Rule)
    (es : List Violation) (hwf : df.WF)
    (h : ruleViolations df rule = some es) :
    ∀ v ∈ es, ∀ i, v.row = some i → i < df.nrows := by
  intro v hv i hrow
  rw [ruleViolations] at h
  cases hcol : rule.column with
  | none =>
    rw [hcol] at h
    injection h with h
    subst h
    rw [List.mem_singleton] at hv
    subst hv
    cases hrow
  | some col =>
    simp only [hcol] at h
    by_cases hce : col = ""
    · rw [if_pos hce] at h
      injection h with h
      subst h
      rw [List.mem_singleton] at hv
      subst hv
      cases hrow
    · rw [if_neg hce] at h
      cases hlook : df.cols.lookup col with
      | none =>
        simp only [hlook] at h
        injection h with h
        subst h
        rw [List.mem_singleton] at hv
        subst hv
        cases hrow
      | some raw =>
        simp only [hlook] at h
        have hraw : raw.length = df.nrows :=
          hwf (col, raw) (mem_of_lookup_eq_some df.cols col raw hlook)
        cases hty : rule.type with
        | none =>
          simp only [hty] at h
          injection h with h
          subst h
          obtain ⟨j, hjrow, hj⟩ := checksViolations_rows col rule raw raw v hv
          rw [hjrow] at hrow
          injection hrow with hrow
          subst hrow
          rcases hj with hj | hj <;> exact hraw ▸ hj
        | some ty =>
          simp only [hty] at h
          by_cases htye : ty = ""
          · rw [if_pos htye] at h
            injection h with h
            subst h
            obtain ⟨j, hjrow, hj⟩ := checksViolations_rows col rule raw raw v hv
            rw [hjrow] at hrow
            injection hrow with hrow
            subst hrow
            rcases hj with hj | hj <;> exact hraw ▸ hj
          · rw [if_neg htye] at h
            cases hco : coerceSeries raw ty with
            | none => simp only [hco] at h; cases h
            | some coerced =>
              simp only [hco] at h
              injection h with h
              subst h
              have hclen : coerced.length = raw.length :=
                coerceSeries_length raw ty coerced hco
              rcases List.mem_append.mp hv with hv | hv
              · obtain ⟨j, hjrow, hj⟩ :=
                  typeFailViolations_rows col ty raw coerced v hv
                rw [hjrow] at hrow
                injection hrow with hrow
                subst hrow
                exact hraw ▸ hj
              · obtain ⟨j, hjrow, hj⟩ :=
                  checksViolations_rows col rule raw coerced v hv
                rw [hjrow] at hrow
                injection hrow with hrow
                subst hrow
                rcases hj with hj | hj
                · exact hraw ▸ hj
                · exact hraw ▸ hclen ▸ hj

/-- Every violation of a run comes from some rule of the ruleset, evaluated
against the original table. -/
theorem loopRules_mem (df : DataFrame) :
    ∀ (rules : List Rule) (errs : List Violation) (dfF : DataFrame),
      loopRules df rules = some (errs, dfF) →
      ∀ v ∈ errs, ∃ r ∈ rules, ∃ es, ruleViolations df r = some es ∧ v ∈ es := by
  intro rules
  induction rules with
  | nil =>
    intro errs dfF h v hv
    rw [loopRules] at h
    injection h with h
    obtain ⟨he, -⟩ := Prod.mk.inj h
    subst he
    cases hv
  | cons r rs ih =>
    intro errs dfF h v hv
    rw [loopRules] at h
    cases h1 : ruleViolations df r with
    | none => rw [h1] at h; cases h
    | some es =>
      rw [h1] at h
      cases h2 : loopRules df rs with
      | none => rw [h2] at h; cases h
      | some p =>
        obtain ⟨rest, dfFin⟩ := p
        rw [h2] at h
        injection h with h
        obtain ⟨he, -⟩ := Prod.mk.inj h
        subst he
        rcases List.mem_append.mp hv with hv | hv
        · exact ⟨r, List.mem_cons_self _ _, es, h1, hv⟩
        · obtain ⟨r2, hr2, es2, hes2, hv2⟩ := ih rest dfFin h2 v hv
          exact ⟨r2, List.mem_cons_of_mem _ hr2, es2, hes2, hv2⟩

/-- C10: in every produced report every violation that carries a row carries
a row index of the validated table (below its row count), and therefore
`rows_failed` never exceeds `rows_checked`. -/
theorem c10_rows_from_table_index :
    ∀ df config report, df.WF → validate_data df config = some report →
      ((∀ v ∈ report.errors, ∀ i, v.row = some i → i < df.nrows) ∧
       report.summary.rows_failed ≤ report.summary.rows_checked) := by
  intro df config report hwf h
  rw [validate_data] at h
  cases hl : loopRules df config.getRules with
  | none => rw [hl] at h; cases h
  | some p =>
    obtain ⟨errors, dfF⟩ := p
    rw [hl] at h
    injection h with h
    subst h
    have hbound : ∀ v ∈ errors, ∀ i, v.row = some i → i < df.nrows := by
      intro v hv i hrow
      obtain ⟨r, hr, es, hes, hv2⟩ :=
        loopRules_mem df config.getRules errors dfF hl v hv
      exact ruleViolations_rows df r es hwf hes v hv2 i hrow
    refine ⟨hbound, ?_⟩
    show distinctFailedRows errors ≤ df.nrows
    rw [distinctFailedRows_eq_card]
    have hsub : (errors.filterMap Violation.row).toFinset ⊆
        Finset.range df.nrows := by
      intro x hx
      rw [List.mem_toFinset, List.mem_filterMap] at hx
      obtain ⟨v, hv, hrow⟩ := hx
      rw [Finset.mem_range]
      exact hbound v hv x hrow
    calc (errors.filterMap Violation.row).toFinset.card
        ≤ (Finset.range df.nrows).card := Finset.card_le_card hsub
      _ = df.nrows := Finset.card_range _

/-- C10 witness: the row-bound and summary inequality at the concrete
missing-column run. -/
theorem c10_rows_witness :
    (∀ v ∈ ghostReport.errors, ∀ i, v.row = some i → i < ghostDF.nrows) ∧
    ghostReport.summary.rows_failed ≤ ghostReport.summary.rows_checked :=
  c10_rows_from_table_index ghostDF ghostConfig ghostReport
    (by decide) (by decide)
